import Mathlib

/-!
Verification development for the DkS3 object-storage client (nodejs-s3).

The repository defines a class DkS3 in three near-identical file variants.
We give a shallow embedding of its operations:

- the local filesystem (readdir / file-vs-directory existence checks /
  whole-buffer reads / stream writes / recursive mkdir) is a `LocalFS` value;
- the remote store is an `S3State` value; listObjectsV2 paging, deleteObjects
  and putObject effects are modelled as pure functions on it;
- single-round-trip remote outcomes that the code merely awaits are supplied
  as an `Except Err` oracle argument;
- each operation additionally returns the list of remote calls it issued.

Fallible code returns an `Except`/`Option Err` component; the recursive
DeleteObjectAsync is embedded with an explicit fuel argument (`none` = fuel
exhausted), and its termination is proved separately.
-/

/-- Remote error or local exception surfaced by an operation. -/
inductive Err where
  | fileNotExist
  | enoent (path : String)
  | aws (code : String)
  deriving DecidableEq

/-- One stored S3 object: key and byte content (bytes as naturals). -/
structure S3Object where
  key : String
  body : List Nat
  deriving DecidableEq

/-- Abstract remote store. `pageSize` is the service-defined page limit of
listObjectsV2 (the source never sets MaxKeys, so the service default applies). -/
structure S3State where
  objects : List S3Object
  pageSize : Nat
  deriving DecidableEq

/-- Local filesystem as the external collaborator surface the source consults:
`files` maps a path to the bytes of a regular file (DkUnixShell.FileExisted /
fs readFile), `dirs` maps a directory path to its direct entry names
(DkUnixShell.DirectoryExisted / fs readdir). Lookup takes the first binding,
so prepending a pair overwrites. -/
structure LocalFS where
  files : List (String × List Nat)
  dirs : List (String × List String)
  deriving DecidableEq

/-- Whether the first character list is an initial segment of the second;
key-matching of the remote listing (key starts with the requested marker). -/
def charsLead : List Char → List Char → Bool
  | [], _ => true
  | _ :: _, [] => false
  | a :: as, b :: bs => a == b && charsLead as bs

/-- Model of the JS string test fileName.endsWith(".png") used by UploadFolder. -/
def endsWithPng (s : String) : Bool :=
  charsLead (".png".data.reverse) (s.data.reverse)

/-- A remote call issued by an operation, recorded for trace reasoning. -/
inductive RemoteCall where
  | listObjectsV2Call (bucketName pfx : String)
  | putObjectCall (bucketName key : String) (body : List Nat) (acl : Option String)
  | uploadCall (bucketName key : String) (body : List Nat) (acl : Option String)
  | getObjectCall (bucketName key : String)
  | deleteObjectsCall (bucketName : String) (keys : List String)
  deriving DecidableEq

/-- Opaque receipt of s3.putObject. -/
abbrev PutObjectOutput := String

/-- Opaque receipt of s3.upload (ManagedUpload.SendData). -/
abbrev SendData := String

/-- Model of ListObjectsV2Output: the page of keys (Contents) and IsTruncated. -/
structure ListOutput where
  contents : List String
  isTruncated : Bool
  deriving DecidableEq

/-- model.ts ListObjectResult. -/
structure ListObjectResult where
  data : Option ListOutput
  err : Option Err
  deriving DecidableEq

/-- model.ts UploadFileResult (data/err variant). -/
structure UploadFileResult where
  data : Option SendData
  err : Option Err
  deriving DecidableEq

/-- model.ts PutFileResult. -/
structure PutFileResult where
  data : Option PutObjectOutput
  err : Option Err
  deriving DecidableEq

/-- model.ts UploadFileResult of the first file variant (result/error fields). -/
structure UploadFileResultV1 where
  result : Option PutObjectOutput
  error : Option Err
  deriving DecidableEq

/-- Keys of the stored objects whose key starts with the given marker string. -/
def matchingKeys (s : S3State) (pfx : String) : List String :=
  (s.objects.filter (fun o => charsLead pfx.data o.key.data)).map (fun o => o.key)

/-- Remote semantics of s3.listObjectsV2 for the states we model: one page of
matching keys, and IsTruncated exactly when more matches exist beyond it. -/
def listObjectsV2 (s : S3State) (pfx : String) : ListOutput :=
  { contents := (matchingKeys s pfx).take s.pageSize,
    isTruncated := decide (s.pageSize < (matchingKeys s pfx).length) }

/-- Remote semantics of s3.deleteObjects: remove every object whose key is in
the request's key list. -/
def deleteKeys (s : S3State) (ks : List String) : S3State :=
  { s with objects := s.objects.filter (fun o => !(ks.contains o.key)) }

/-- Remote semantics of s3.putObject / s3.upload: overwrite the object at key. -/
def putEffect (s : S3State) (key : String) (body : List Nat) : S3State :=
  { s with objects := ⟨key, body⟩ :: s.objects.filter (fun o => !(o.key == key)) }

/-- Body of the stored object at the given key, if any (s3.getObject source). -/
def lookupObj : List S3Object → String → Option (List Nat)
  | [], _ => none
  | o :: rest, k => if o.key == k then some o.body else lookupObj rest k

/-- Truthiness of the optional ACL argument: the source attaches uploadParams.ACL
only when the string is truthy, so null and the empty string are dropped. -/
def effACL : Option String → Option String
  | none => none
  | some a => if a = "" then none else some a

/-- ListObjectsAsync of the third file variant (and the commented-out data path):
wraps the one listing round trip in try/catch and returns a ListObjectResult. -/
def ListObjectsAsync (remote : Except Err ListOutput) (bucketName pfx : String) :
    ListObjectResult × List RemoteCall :=
  match remote with
  | Except.ok out => ({ data := some out, err := none }, [RemoteCall.listObjectsV2Call bucketName pfx])
  | Except.error e => ({ data := none, err := some e }, [RemoteCall.listObjectsV2Call bucketName pfx])

/-- ListObjectsAsync of the first file variant (and ListObjects of the second):
awaits the listing with no try/catch, so a rejected promise propagates out of
the async function (first component `Except.error`); on success it only logs. -/
def ListObjectsAsyncV1 (remote : Except Err ListOutput) (bucketName pfx : String) :
    Except Err Unit × List RemoteCall :=
  match remote with
  | Except.ok _ => (Except.ok (), [RemoteCall.listObjectsV2Call bucketName pfx])
  | Except.error e => (Except.error e, [RemoteCall.listObjectsV2Call bucketName pfx])

/-- UploadFileAsync of the third file variant: throws (caught locally) when the
local path is not an existing regular file, otherwise reads the whole file and
issues one s3.upload call; try/catch converts any failure into the result. -/
def UploadFileAsync (fs : LocalFS) (remote : Except Err SendData)
    (bucketName clientFilePath s3RelativeFilePath : String) (ACL : Option String) :
    UploadFileResult × List RemoteCall :=
  match fs.files.lookup clientFilePath with
  | none => ({ data := none, err := some Err.fileNotExist }, [])
  | some fileBuffer =>
    match remote with
    | Except.ok d =>
      ({ data := some d, err := none },
        [RemoteCall.uploadCall bucketName s3RelativeFilePath fileBuffer (effACL ACL)])
    | Except.error e =>
      ({ data := none, err := some e },
        [RemoteCall.uploadCall bucketName s3RelativeFilePath fileBuffer (effACL ACL)])

/-- PutFileAsync of the third file variant: same shape as UploadFileAsync but a
single s3.putObject call. -/
def PutFileAsync (fs : LocalFS) (remote : Except Err PutObjectOutput)
    (bucketName clientFilePath s3RelativeFilePath : String) (ACL : Option String) :
    PutFileResult × List RemoteCall :=
  match fs.files.lookup clientFilePath with
  | none => ({ data := none, err := some Err.fileNotExist }, [])
  | some fileBuffer =>
    match remote with
    | Except.ok d =>
      ({ data := some d, err := none },
        [RemoteCall.putObjectCall bucketName s3RelativeFilePath fileBuffer (effACL ACL)])
    | Except.error e =>
      ({ data := none, err := some e },
        [RemoteCall.putObjectCall bucketName s3RelativeFilePath fileBuffer (effACL ACL)])

/-- UploadFileAsync of the first file variant: no ACL parameter, s3.putObject,
result/error field names. -/
def UploadFileAsyncV1 (fs : LocalFS) (remote : Except Err PutObjectOutput)
    (bucketName clientFilePath s3RelativeFilePath : String) :
    UploadFileResultV1 × List RemoteCall :=
  match fs.files.lookup clientFilePath with
  | none => ({ result := none, error := some Err.fileNotExist }, [])
  | some fileBuffer =>
    match remote with
    | Except.ok d =>
      ({ result := some d, error := none },
        [RemoteCall.putObjectCall bucketName s3RelativeFilePath fileBuffer none])
    | Except.error e =>
      ({ result := none, error := some e },
        [RemoteCall.putObjectCall bucketName s3RelativeFilePath fileBuffer none])

/-- Per-entry loop of UploadFolderAsync / PutFolderAsync: path.join the entry
name, skip directories, read the file (a read failure rejects the whole async
call, after the already-issued calls), and fire one callback-style putObject
per remaining file. Returns (issued calls, escaping error if any). -/
def uploadFolderLoop (fs : LocalFS) (bucketName fromLocalFolderPath toS3RelativeFolderPath : String) :
    List String → List RemoteCall × Option Err
  | [] => ([], none)
  | fileName :: rest =>
    if ((fs.dirs.lookup (fromLocalFolderPath ++ "/" ++ fileName)).isSome) then
      uploadFolderLoop fs bucketName fromLocalFolderPath toS3RelativeFolderPath rest
    else
      match fs.files.lookup (fromLocalFolderPath ++ "/" ++ fileName) with
      | none => ([], some (Err.enoent (fromLocalFolderPath ++ "/" ++ fileName)))
      | some fileBuffer =>
        ((RemoteCall.putObjectCall bucketName
            (toS3RelativeFolderPath ++ "/" ++ fileName) fileBuffer none)
          :: (uploadFolderLoop fs bucketName fromLocalFolderPath toS3RelativeFolderPath rest).1,
          (uploadFolderLoop fs bucketName fromLocalFolderPath toS3RelativeFolderPath rest).2)

/-- UploadFolderAsync of the first file variant. fs readdir of a missing folder
rejects (ENOENT) with no try/catch around it, so that error escapes; an existing
folder yields its entry list, then the empty and 10000-entry guards run before
any upload. Result: (issued upload calls, escaping error if any). -/
def UploadFolderAsync (fs : LocalFS) (bucketName fromLocalFolderPath toS3RelativeFolderPath : String) :
    List RemoteCall × Option Err :=
  match fs.dirs.lookup fromLocalFolderPath with
  | none => ([], some (Err.enoent fromLocalFolderPath))
  | some fileNames =>
    if fileNames.length = 0 then ([], none)
    else if fileNames.length > 10000 then ([], none)
    else uploadFolderLoop fs bucketName fromLocalFolderPath toS3RelativeFolderPath fileNames

/-- PutFolderAsync of the third file variant: textually the same procedure as
UploadFolderAsync (readdir, empty guard, 10000-entry guard, per-file loop). -/
def PutFolderAsync (fs : LocalFS) (bucketName fromLocalFolderPath toS3RelativeFolderPath : String) :
    List RemoteCall × Option Err :=
  match fs.dirs.lookup fromLocalFolderPath with
  | none => ([], some (Err.enoent fromLocalFolderPath))
  | some fileNames =>
    if fileNames.length = 0 then ([], none)
    else if fileNames.length > 10000 then ([], none)
    else uploadFolderLoop fs bucketName fromLocalFolderPath toS3RelativeFolderPath fileNames

/-- Per-entry loop of UploadFolder (second file variant): skips directories and
additionally skips entry names not ending in ".png" before reading/uploading. -/
def uploadFolderPngLoop (fs : LocalFS) (bucketName fromLocalFolderPath toS3RelativeFolderPath : String) :
    List String → List RemoteCall × Option Err
  | [] => ([], none)
  | fileName :: rest =>
    if ((fs.dirs.lookup (fromLocalFolderPath ++ "/" ++ fileName)).isSome) then
      uploadFolderPngLoop fs bucketName fromLocalFolderPath toS3RelativeFolderPath rest
    else if !(endsWithPng fileName) then
      uploadFolderPngLoop fs bucketName fromLocalFolderPath toS3RelativeFolderPath rest
    else
      match fs.files.lookup (fromLocalFolderPath ++ "/" ++ fileName) with
      | none => ([], some (Err.enoent (fromLocalFolderPath ++ "/" ++ fileName)))
      | some fileBuffer =>
        ((RemoteCall.putObjectCall bucketName
            (toS3RelativeFolderPath ++ "/" ++ fileName) fileBuffer none)
          :: (uploadFolderPngLoop fs bucketName fromLocalFolderPath toS3RelativeFolderPath rest).1,
          (uploadFolderPngLoop fs bucketName fromLocalFolderPath toS3RelativeFolderPath rest).2)

/-- UploadFolder of the second file variant: same guards as UploadFolderAsync,
then the per-entry loop that also filters for ".png" names. -/
def UploadFolder (fs : LocalFS) (bucketName fromLocalFolderPath toS3RelativeFolderPath : String) :
    List RemoteCall × Option Err :=
  match fs.dirs.lookup fromLocalFolderPath with
  | none => ([], some (Err.enoent fromLocalFolderPath))
  | some fileNames =>
    if fileNames.length = 0 then ([], none)
    else if fileNames.length > 10000 then ([], none)
    else uploadFolderPngLoop fs bucketName fromLocalFolderPath toS3RelativeFolderPath fileNames

/-- Modelled from the spec: DkFiles.MkDirsOrThrowAsync (nodejs-core, not in this
repository) creates the directory recursively and idempotently; only the
existence of the created path itself is consulted downstream, so ancestor
registration is not modelled. -/
def mkDirs (fs : LocalFS) (d : String) : LocalFS :=
  if ((fs.dirs.lookup d).isSome) then fs
  else { fs with dirs := (d, []) :: fs.dirs }

/-- Parent directory of a slash-separated path: the characters before the last
slash (empty when there is no slash). -/
def parentDir (s : String) : String :=
  String.mk (((s.data.reverse.dropWhile (fun c => c != '/')).drop 1).reverse)

/-- Whether a string contains no slash (a flat object key). -/
def noSlash (s : String) : Bool := !(s.data.contains '/')

/-- One iteration of the DownloadObjectsAsync loop: mkdirs the output directory
(only it, not the target's parent), then stream the object to
path.join(out_dirPath, key). Modelled from the spec for the stream write: the
local filesystem write succeeds only when the parent directory of the target
path exists; otherwise the stream errors and no file appears. -/
def downloadOne (s3 : S3State) (out_dirPath key : String) (fs : LocalFS) : LocalFS :=
  match lookupObj s3.objects key with
  | none => mkDirs fs out_dirPath
  | some body =>
    if (((mkDirs fs out_dirPath).dirs.lookup (parentDir (out_dirPath ++ "/" ++ key))).isSome) then
      { mkDirs fs out_dirPath with
          files := (out_dirPath ++ "/" ++ key, body) :: (mkDirs fs out_dirPath).files }
    else mkDirs fs out_dirPath

/-- The download loop over the listed page of keys, in listing order. -/
def downloadLoop (s3 : S3State) (out_dirPath : String) : List String → LocalFS → LocalFS
  | [], fs => fs
  | key :: rest, fs => downloadLoop s3 out_dirPath rest (downloadOne s3 out_dirPath key fs)

/-- DownloadObjectsAsync (identical in the first and third file variants, and
DownloadObjects of the second): one listing page, then per listed key mkdirs of
out_dirPath and a streamed write to path.join(out_dirPath, key). -/
def DownloadObjectsAsync (s3 : S3State) (fs : LocalFS) (bucketName out_dirPath pfx : String) : LocalFS :=
  downloadLoop s3 out_dirPath (listObjectsV2 s3 pfx).contents fs

/-- DeleteObjectAsync (identical across the file variants): list one page under
the marker, batch-delete exactly the listed keys, and recurse when IsTruncated.
Fuel bounds the recursion depth; `none` means the fuel ran out. -/
def DeleteObjectAsync : Nat → S3State → String → String → Option (S3State × List RemoteCall)
  | 0, _, _, _ => none
  | fuel+1, s, bucketName, pfx =>
    if (listObjectsV2 s pfx).isTruncated then
      match DeleteObjectAsync fuel (deleteKeys s (listObjectsV2 s pfx).contents) bucketName pfx with
      | none => none
      | some (s2, tr2) =>
        some (s2, RemoteCall.listObjectsV2Call bucketName pfx
          :: RemoteCall.deleteObjectsCall bucketName (listObjectsV2 s pfx).contents :: tr2)
    else
      some (deleteKeys s (listObjectsV2 s pfx).contents,
        [RemoteCall.listObjectsV2Call bucketName pfx,
          RemoteCall.deleteObjectsCall bucketName (listObjectsV2 s pfx).contents])

/-! ### Helper lemmas -/

/-- Filtering strictly shrinks a list that has a member failing the predicate. -/
theorem length_filter_lt_of_mem {α : Type} {p : α → Bool} {l : List α} {x : α}
    (hx : x ∈ l) (hpx : p x = false) : (l.filter p).length < l.length := by
  induction l with
  | nil => cases hx
  | cons a l ih =>
    rw [List.filter_cons]
    rcases List.mem_cons.mp hx with h | h
    · subst h
      rw [if_neg (by simp [hpx])]
      have h2 := List.length_filter_le p l
      simp only [List.length_cons]
      omega
    · by_cases hpa : p a = true
      · rw [if_pos hpa]
        have h2 := ih h
        simp only [List.length_cons]
        omega
      · rw [if_neg hpa]
        have h2 := ih h
        simp only [List.length_cons]
        omega

/-- Batch-deleting the empty key list leaves the store unchanged. -/
theorem deleteKeys_nil (s : S3State) : deleteKeys s [] = s := by
  cases s with
  | mk objects pageSize =>
    simp [deleteKeys]

/-- A store with no matching key lists an empty, non-truncated page. -/
theorem listObjectsV2_of_no_match {s : S3State} {p : String} (h : matchingKeys s p = []) :
    listObjectsV2 s p = ⟨[], false⟩ := by
  simp [listObjectsV2, h]

/-- On a store with no matching key, one deletion round lists, issues the empty
batch delete, does not recurse, and leaves the store unchanged. -/
theorem deleteObjectAsync_of_no_match (fuel : Nat) (s : S3State) (b p : String)
    (h : matchingKeys s p = []) :
    DeleteObjectAsync (fuel+1) s b p
      = some (s, [RemoteCall.listObjectsV2Call b p, RemoteCall.deleteObjectsCall b []]) := by
  have hl := listObjectsV2_of_no_match h
  simp [DeleteObjectAsync, hl, deleteKeys_nil]

/-- Deleting every currently matching key leaves no matching key. -/
theorem matchingKeys_deleteKeys_self (s : S3State) (p : String) :
    matchingKeys (deleteKeys s (matchingKeys s p)) p = [] := by
  simp only [matchingKeys, deleteKeys]
  rw [List.map_eq_nil_iff, List.filter_eq_nil_iff]
  intro o ho hm
  obtain ⟨hmem, hnc⟩ := List.mem_filter.mp ho
  simp at hnc
  exact hnc o hmem hm rfl

/-- Whatever fuel it is given, a completed DeleteObjectAsync run ends in a store
with no key matching the marker. -/
theorem deleteObjectAsync_final_no_match (b p : String) :
    ∀ (fuel : Nat) (s s1 : S3State) (tr : List RemoteCall),
      DeleteObjectAsync fuel s b p = some (s1, tr) → matchingKeys s1 p = [] := by
  intro fuel
  induction fuel with
  | zero => intro s s1 tr h; simp [DeleteObjectAsync] at h
  | succ n ih =>
    intro s s1 tr h
    simp only [DeleteObjectAsync] at h
    by_cases ht : (listObjectsV2 s p).isTruncated = true
    · rw [if_pos ht] at h
      cases hrec : DeleteObjectAsync n (deleteKeys s (listObjectsV2 s p).contents) b p with
      | none => rw [hrec] at h; simp at h
      | some pr =>
        obtain ⟨s2, tr2⟩ := pr
        rw [hrec] at h
        simp only [Option.some.injEq, Prod.mk.injEq] at h
        obtain ⟨hs, -⟩ := h
        exact hs ▸ ih _ _ _ hrec
    · rw [if_neg ht] at h
      simp only [Option.some.injEq, Prod.mk.injEq] at h
      obtain ⟨hs, -⟩ := h
      have hnt : ¬ (s.pageSize < (matchingKeys s p).length) := by
        simpa [listObjectsV2] using ht
      have hc : (listObjectsV2 s p).contents = matchingKeys s p := by
        simp [listObjectsV2, List.take_of_length_le (Nat.le_of_not_lt hnt)]
      rw [← hs, hc]
      exact matchingKeys_deleteKeys_self s p

/-- A truncated deletion round strictly shrinks the set of matching keys. -/
theorem matchingKeys_length_decrease (s : S3State) (p : String)
    (hps : 0 < s.pageSize) (ht : s.pageSize < (matchingKeys s p).length) :
    (matchingKeys (deleteKeys s ((matchingKeys s p).take s.pageSize)) p).length
      < (matchingKeys s p).length := by
  have hrw : matchingKeys (deleteKeys s ((matchingKeys s p).take s.pageSize)) p
      = ((s.objects.filter (fun o => charsLead p.data o.key.data)).filter
          (fun o => !(((matchingKeys s p).take s.pageSize).contains o.key))).map
        (fun o => o.key) := by
    simp only [matchingKeys, deleteKeys, List.filter_filter]
    congr 1
    exact List.filter_congr (fun a _ => by rw [Bool.and_comm])
  rw [hrw]
  have hlen : (matchingKeys s p).length
      = (s.objects.filter (fun o => charsLead p.data o.key.data)).length := by
    simp [matchingKeys]
  rw [List.length_map, hlen]
  -- pick a key from the (nonempty) listed page
  have hne : (matchingKeys s p).take s.pageSize ≠ [] := by
    have : ((matchingKeys s p).take s.pageSize).length = min s.pageSize (matchingKeys s p).length := by
      simp
    intro hcon
    rw [hcon] at this
    simp at this
    omega
  obtain ⟨k0, hk0⟩ := List.exists_mem_of_ne_nil _ hne
  have hk0m : k0 ∈ matchingKeys s p := List.mem_of_mem_take hk0
  obtain ⟨o, ho, hok⟩ := List.mem_map.mp hk0m
  have hcont : (((matchingKeys s p).take s.pageSize).contains o.key) = true := by
    rw [hok]
    simpa [List.contains] using List.elem_iff.mpr hk0
  have hpred : (!(((matchingKeys s p).take s.pageSize).contains o.key)) = false := by
    rw [hcont]
    decide
  exact length_filter_lt_of_mem ho hpred

/-- One unfolding step of DeleteObjectAsync at positive fuel. -/
theorem deleteObjectAsync_succ (fuel : Nat) (s : S3State) (b p : String) :
    DeleteObjectAsync (fuel+1) s b p
      = if (listObjectsV2 s p).isTruncated = true then
          match DeleteObjectAsync fuel (deleteKeys s (listObjectsV2 s p).contents) b p with
          | none => none
          | some (s2, tr2) => some (s2, RemoteCall.listObjectsV2Call b p
              :: RemoteCall.deleteObjectsCall b (listObjectsV2 s p).contents :: tr2)
        else some (deleteKeys s (listObjectsV2 s p).contents,
          [RemoteCall.listObjectsV2Call b p,
            RemoteCall.deleteObjectsCall b (listObjectsV2 s p).contents]) := by
  simp only [DeleteObjectAsync]

/-- Fuel one larger than the number of matching keys always completes the
recursion, provided the service page size is positive. -/
theorem delete_fuel_suffices (b p : String) :
    ∀ (n : Nat) (s : S3State), 0 < s.pageSize → (matchingKeys s p).length ≤ n →
      (DeleteObjectAsync (n+1) s b p).isSome = true := by
  intro n
  induction n with
  | zero =>
    intro s hps hlen
    have h0 : matchingKeys s p = [] := List.length_eq_zero.mp (Nat.le_zero.mp hlen)
    rw [deleteObjectAsync_of_no_match 0 s b p h0]
    rfl
  | succ n ih =>
    intro s hps hlen
    by_cases ht : (listObjectsV2 s p).isTruncated = true
    · have htl : s.pageSize < (matchingKeys s p).length := by
        simpa [listObjectsV2] using ht
      have hdec := matchingKeys_length_decrease s p hps htl
      have hle : (matchingKeys (deleteKeys s ((matchingKeys s p).take s.pageSize)) p).length ≤ n := by
        omega
      have hrec := ih (deleteKeys s ((matchingKeys s p).take s.pageSize)) hps hle
      have hc : (listObjectsV2 s p).contents = (matchingKeys s p).take s.pageSize := rfl
      rw [deleteObjectAsync_succ (n+1) s b p, if_pos ht, hc]
      cases hres : DeleteObjectAsync (n+1) (deleteKeys s ((matchingKeys s p).take s.pageSize)) b p with
      | none => rw [hres] at hrec; simp at hrec
      | some pr =>
        obtain ⟨s2, tr2⟩ := pr
        rfl
    · rw [deleteObjectAsync_succ (n+1) s b p, if_neg ht]
      rfl

/-! ### Claims about DeleteObjectAsync -/

/-- C2: in each invocation, DeleteObjectAsync passes to the batch-delete call
exactly the key list returned by that invocation's listObjectsV2 page (no more,
no fewer), and performs a recursive self-call (whose calls follow in the trace)
if and only if the listing's truncation flag is set. -/
theorem c2_delete_batches_listed_page (fuel : Nat) (s : S3State) (b p : String)
    (s' : S3State) (tr : List RemoteCall)
    (h : DeleteObjectAsync (fuel+1) s b p = some (s', tr)) :
    ∃ rest, tr = RemoteCall.listObjectsV2Call b p
        :: RemoteCall.deleteObjectsCall b (listObjectsV2 s p).contents :: rest
      ∧ ((listObjectsV2 s p).isTruncated = true →
          DeleteObjectAsync fuel (deleteKeys s (listObjectsV2 s p).contents) b p = some (s', rest))
      ∧ ((listObjectsV2 s p).isTruncated = false →
          rest = [] ∧ s' = deleteKeys s (listObjectsV2 s p).contents) := by
  simp only [DeleteObjectAsync] at h
  by_cases ht : (listObjectsV2 s p).isTruncated = true
  · rw [if_pos ht] at h
    cases hrec : DeleteObjectAsync fuel (deleteKeys s (listObjectsV2 s p).contents) b p with
    | none => rw [hrec] at h; simp at h
    | some pr =>
      obtain ⟨s2, tr2⟩ := pr
      rw [hrec] at h
      simp only [Option.some.injEq, Prod.mk.injEq] at h
      obtain ⟨hs, htr⟩ := h
      subst hs
      subst htr
      exact ⟨tr2, rfl, fun _ => rfl, fun hf => by simp [hf] at ht⟩
  · rw [if_neg ht] at h
    simp only [Option.some.injEq, Prod.mk.injEq] at h
    obtain ⟨hs, htr⟩ := h
    subst htr
    exact ⟨[], rfl, fun htt => absurd htt ht, fun _ => ⟨rfl, hs.symm⟩⟩

/-- C2 witness: a concrete one-page run (page size 1, a single matching object);
the batch delete carries exactly the listed page and no recursion occurs. -/
theorem c2_witness :
    DeleteObjectAsync 1 (⟨[⟨"wa", [1]⟩], 1⟩ : S3State) "isky" "w"
        = some (⟨[], 1⟩, [RemoteCall.listObjectsV2Call "isky" "w",
            RemoteCall.deleteObjectsCall "isky" ["wa"]])
      ∧ ∃ rest, [RemoteCall.listObjectsV2Call "isky" "w",
            RemoteCall.deleteObjectsCall "isky" ["wa"]]
          = RemoteCall.listObjectsV2Call "isky" "w"
            :: RemoteCall.deleteObjectsCall "isky"
              (listObjectsV2 (⟨[⟨"wa", [1]⟩], 1⟩ : S3State) "w").contents :: rest
        ∧ ((listObjectsV2 (⟨[⟨"wa", [1]⟩], 1⟩ : S3State) "w").isTruncated = true →
            DeleteObjectAsync 0 (deleteKeys (⟨[⟨"wa", [1]⟩], 1⟩ : S3State)
              (listObjectsV2 (⟨[⟨"wa", [1]⟩], 1⟩ : S3State) "w").contents) "isky" "w"
              = some ((⟨[], 1⟩ : S3State), rest))
        ∧ ((listObjectsV2 (⟨[⟨"wa", [1]⟩], 1⟩ : S3State) "w").isTruncated = false →
            rest = [] ∧ (⟨[], 1⟩ : S3State) = deleteKeys (⟨[⟨"wa", [1]⟩], 1⟩ : S3State)
              (listObjectsV2 (⟨[⟨"wa", [1]⟩], 1⟩ : S3State) "w").contents) :=
  ⟨by decide, c2_delete_batches_listed_page 0 ⟨[⟨"wa", [1]⟩], 1⟩ "isky" "w" ⟨[], 1⟩
    [RemoteCall.listObjectsV2Call "isky" "w", RemoteCall.deleteObjectsCall "isky" ["wa"]]
    (by decide)⟩

/-- C7: DeleteObjectAsync is idempotent. After any completed run no key matches
the marker, and a second invocation completes in one round, deletes the empty
key list (zero objects), and leaves the store unchanged. -/
theorem c7_deleteObjectAsync_idempotent (fuel : Nat) (s : S3State) (b p : String)
    (s1 : S3State) (tr : List RemoteCall)
    (h : DeleteObjectAsync fuel s b p = some (s1, tr)) :
    matchingKeys s1 p = []
      ∧ DeleteObjectAsync 1 s1 b p
          = some (s1, [RemoteCall.listObjectsV2Call b p, RemoteCall.deleteObjectsCall b []]) := by
  have h1 := deleteObjectAsync_final_no_match b p fuel s s1 tr h
  exact ⟨h1, deleteObjectAsync_of_no_match 0 s1 b p h1⟩

/-- C7 witness: a two-object store with page size 1; the first run needs two
pages, afterwards nothing matches and the second run deletes nothing. -/
theorem c7_witness :
    DeleteObjectAsync 3 (⟨[⟨"wa", [1]⟩, ⟨"wb", [2]⟩], 1⟩ : S3State) "isky" "w"
        = some (⟨[], 1⟩, [RemoteCall.listObjectsV2Call "isky" "w",
            RemoteCall.deleteObjectsCall "isky" ["wa"],
            RemoteCall.listObjectsV2Call "isky" "w",
            RemoteCall.deleteObjectsCall "isky" ["wb"]])
      ∧ (matchingKeys (⟨[], 1⟩ : S3State) "w" = []
        ∧ DeleteObjectAsync 1 (⟨[], 1⟩ : S3State) "isky" "w"
            = some ((⟨[], 1⟩ : S3State), [RemoteCall.listObjectsV2Call "isky" "w",
                RemoteCall.deleteObjectsCall "isky" []])) :=
  ⟨by decide, c7_deleteObjectAsync_idempotent 3 ⟨[⟨"wa", [1]⟩, ⟨"wb", [2]⟩], 1⟩ "isky" "w"
    ⟨[], 1⟩ [RemoteCall.listObjectsV2Call "isky" "w",
      RemoteCall.deleteObjectsCall "isky" ["wa"],
      RemoteCall.listObjectsV2Call "isky" "w",
      RemoteCall.deleteObjectsCall "isky" ["wb"]] (by decide)⟩

/-- C8: DeleteObjectAsync terminates. Under the model in which each page's batch
delete removes the listed objects, fuel one larger than the number of matching
keys completes the recursion (it reaches a non-truncated listing and stops),
provided the service page size is positive. -/
theorem c8_deleteObjectAsync_terminates (s : S3State) (b p : String) (hps : 0 < s.pageSize) :
    (DeleteObjectAsync ((matchingKeys s p).length + 1) s b p).isSome = true :=
  delete_fuel_suffices b p (matchingKeys s p).length s hps (Nat.le_refl _)

/-- C8 witness: the two-object, page-size-1 store terminates within the stated
fuel bound. -/
theorem c8_witness :
    0 < (⟨[⟨"wa", [1]⟩, ⟨"wb", [2]⟩], 1⟩ : S3State).pageSize
      ∧ (DeleteObjectAsync ((matchingKeys (⟨[⟨"wa", [1]⟩, ⟨"wb", [2]⟩], 1⟩ : S3State) "w").length + 1)
          (⟨[⟨"wa", [1]⟩, ⟨"wb", [2]⟩], 1⟩ : S3State) "isky" "w").isSome = true :=
  ⟨by decide, c8_deleteObjectAsync_terminates ⟨[⟨"wa", [1]⟩, ⟨"wb", [2]⟩], 1⟩ "isky" "w" (by decide)⟩

/-- C10: when nothing matches the marker, DeleteObjectAsync does not return
early: it still issues a batch-delete call whose key list is empty (and then
stops, the listing being non-truncated). -/
theorem c10_delete_empty_listing (fuel : Nat) (s : S3State) (b p : String)
    (h : matchingKeys s p = []) :
    DeleteObjectAsync (fuel+1) s b p
      = some (s, [RemoteCall.listObjectsV2Call b p, RemoteCall.deleteObjectsCall b []]) :=
  deleteObjectAsync_of_no_match fuel s b p h

/-- C10 witness: a store whose single object does not match the marker; the
empty batch delete is still issued. -/
theorem c10_witness :
    matchingKeys (⟨[⟨"x", [9]⟩], 5⟩ : S3State) "wm/test" = []
      ∧ DeleteObjectAsync 1 (⟨[⟨"x", [9]⟩], 5⟩ : S3State) "isky" "wm/test"
          = some ((⟨[⟨"x", [9]⟩], 5⟩ : S3State), [RemoteCall.listObjectsV2Call "isky" "wm/test",
              RemoteCall.deleteObjectsCall "isky" []]) :=
  ⟨by decide, c10_delete_empty_listing 0 ⟨[⟨"x", [9]⟩], 5⟩ "isky" "wm/test" (by decide)⟩

/-! ### Claims about the single-file operations -/

/-- C1: for every bucket, key and local path that is not an existing regular
file, UploadFileAsync (both variants) and PutFileAsync return null data and a
non-null not-found error (the caught "File not exist" throw), and issue no
remote upload call. -/
theorem c1_upload_missing_file (fs : LocalFS) (remoteU : Except Err SendData)
    (remoteP remoteV : Except Err PutObjectOutput)
    (b cp k : String) (acl : Option String)
    (h : fs.files.lookup cp = none) :
    UploadFileAsync fs remoteU b cp k acl = ({ data := none, err := some Err.fileNotExist }, [])
      ∧ PutFileAsync fs remoteP b cp k acl = ({ data := none, err := some Err.fileNotExist }, [])
      ∧ UploadFileAsyncV1 fs remoteV b cp k = ({ result := none, error := some Err.fileNotExist }, []) := by
  refine ⟨?_, ?_, ?_⟩ <;> simp [UploadFileAsync, PutFileAsync, UploadFileAsyncV1, h]

/-- C1 witness: an empty local filesystem and the example paths of the source
comments; no upload call is issued and the not-found error is returned. -/
theorem c1_witness :
    (⟨[], []⟩ : LocalFS).files.lookup "./mydata/upload/clip.mp4" = none
      ∧ (UploadFileAsync ⟨[], []⟩ (Except.ok "r") "staging" "./mydata/upload/clip.mp4"
            "upload/today/movie.mp4" none = ({ data := none, err := some Err.fileNotExist }, [])
        ∧ PutFileAsync ⟨[], []⟩ (Except.ok "r") "staging" "./mydata/upload/clip.mp4"
            "upload/today/movie.mp4" none = ({ data := none, err := some Err.fileNotExist }, [])
        ∧ UploadFileAsyncV1 ⟨[], []⟩ (Except.ok "r") "staging" "./mydata/upload/clip.mp4"
            "upload/today/movie.mp4" = ({ result := none, error := some Err.fileNotExist }, [])) :=
  ⟨rfl, c1_upload_missing_file ⟨[], []⟩ (Except.ok "r") (Except.ok "r") (Except.ok "r")
    "staging" "./mydata/upload/clip.mp4" "upload/today/movie.mp4" none rfl⟩

/-- C3: evidence at the failing input for the missing-folder case. The claim
says no error escapes UploadFolderAsync/PutFolderAsync when the folder is
missing, but fs readdir of a missing folder rejects with ENOENT and the source
has no try/catch around it (its own log line claims to handle the case): zero
uploads happen, yet the error escapes the async call. -/
theorem c3_missing_folder_error_escapes :
    UploadFolderAsync ⟨[], []⟩ "staging" "./mydata/upload" "upload/today"
        = ([], some (Err.enoent "./mydata/upload"))
      ∧ PutFolderAsync ⟨[], []⟩ "staging" "./mydata/upload" "upload/today"
        = ([], some (Err.enoent "./mydata/upload")) :=
  ⟨rfl, rfl⟩

/-- C4 counterexample: the first-variant ListObjectsAsync (part_000 lines 34-45,
likewise ListObjects of the second variant) awaits the listing with no
try/catch. At a failing remote call it does not return a (payload, error) pair
with the error captured: the thrown error escapes its boundary unchanged,
falsifying the claim for that listed operation. -/
theorem c4_void_list_error_escapes :
    (ListObjectsAsyncV1 (Except.error (Err.aws "NetworkingError")) "isky" "wm/test").1
      = Except.error (Err.aws "NetworkingError") := rfl

/-- C4 amended: every result-returning single-round-trip operation
(ListObjectsAsync of the third variant, UploadFileAsync, PutFileAsync,
UploadFileAsyncV1) returns at most one non-null of payload/error and converts a
thrown/raised remote error into the returned value (null payload, populated
error) instead of letting it escape; the void listing variants are excluded. -/
theorem c4_result_ops_convert_errors (fs : LocalFS) (remoteL : Except Err ListOutput)
    (remoteU : Except Err SendData) (remoteP remoteV : Except Err PutObjectOutput)
    (b cp k : String) (acl : Option String) (e : Err) :
    ((ListObjectsAsync remoteL b k).1.data = none ∨ (ListObjectsAsync remoteL b k).1.err = none)
      ∧ (ListObjectsAsync (Except.error e) b k).1 = { data := none, err := some e }
      ∧ ((UploadFileAsync fs remoteU b cp k acl).1.data = none
          ∨ (UploadFileAsync fs remoteU b cp k acl).1.err = none)
      ∧ ((UploadFileAsync fs (Except.error e) b cp k acl).1.data = none
          ∧ ((UploadFileAsync fs (Except.error e) b cp k acl).1.err).isSome = true)
      ∧ ((PutFileAsync fs remoteP b cp k acl).1.data = none
          ∨ (PutFileAsync fs remoteP b cp k acl).1.err = none)
      ∧ ((PutFileAsync fs (Except.error e) b cp k acl).1.data = none
          ∧ ((PutFileAsync fs (Except.error e) b cp k acl).1.err).isSome = true)
      ∧ ((UploadFileAsyncV1 fs remoteV b cp k).1.result = none
          ∨ (UploadFileAsyncV1 fs remoteV b cp k).1.error = none)
      ∧ ((UploadFileAsyncV1 fs (Except.error e) b cp k).1.result = none
          ∧ ((UploadFileAsyncV1 fs (Except.error e) b cp k).1.error).isSome = true) := by
  cases hcp : fs.files.lookup cp <;>
    cases remoteL <;> cases remoteU <;> cases remoteP <;> cases remoteV <;>
      simp [ListObjectsAsync, UploadFileAsync, PutFileAsync, UploadFileAsyncV1, hcp]

/-- C9: the 10,000-entry ceiling is applied to the raw readdir entry count,
before subdirectories are skipped: a folder with more than 10,000 entries is
refused with zero uploads and no escaping error, even when at most 10,000 of
its entries are regular files. -/
theorem c9_ceiling_counts_raw_entries (fs : LocalFS) (b folder p : String) (names : List String)
    (hdir : fs.dirs.lookup folder = some names)
    (hbig : 10000 < names.length)
    (hfiles : (names.filter (fun n => (fs.files.lookup (folder ++ "/" ++ n)).isSome)).length ≤ 10000) :
    UploadFolderAsync fs b folder p = ([], none) ∧ PutFolderAsync fs b folder p = ([], none) := by
  have hne : ¬ (names.length = 0) := by omega
  have hgt : names.length > 10000 := hbig
  constructor <;> simp [UploadFolderAsync, PutFolderAsync, hdir, hne, hgt]

/-- A folder listing of 10001 distinct names, used as the C9 witness input. -/
def bigNames : List String := (List.range 10001).map (fun i => Nat.repr i)

/-- A filesystem whose folder d has 10001 entries, none of them a regular file. -/
def fsBig : LocalFS := ⟨[], [("d", bigNames)]⟩

/-- C9 witness: the 10001-entry folder (with zero regular-file entries, hence at
most 10000) is refused by both folder-upload functions. -/
theorem c9_witness :
    fsBig.dirs.lookup "d" = some bigNames
      ∧ 10000 < bigNames.length
      ∧ (bigNames.filter (fun n => (fsBig.files.lookup ("d" ++ "/" ++ n)).isSome)).length ≤ 10000
      ∧ (UploadFolderAsync fsBig "staging" "d" "wm" = ([], none)
        ∧ PutFolderAsync fsBig "staging" "d" "wm" = ([], none)) :=
  ⟨rfl, by simp [bigNames], by simp [fsBig],
    c9_ceiling_counts_raw_entries fsBig "staging" "d" "wm" bigNames rfl
      (by simp [bigNames]) (by simp [fsBig])⟩

/-! ### Claims about folder upload -/

/-- The upload calls UploadFolderAsync/PutFolderAsync issue: one per entry that
is not a directory, keyed toS3RelativeFolderPath/fileName with the file bytes. -/
def expectedUploads (fs : LocalFS) (b folder p : String) (names : List String) : List RemoteCall :=
  names.filterMap (fun n =>
    if ((fs.dirs.lookup (folder ++ "/" ++ n)).isSome) then none
    else (fs.files.lookup (folder ++ "/" ++ n)).map
      (fun buf => RemoteCall.putObjectCall b (p ++ "/" ++ n) buf none))

/-- The upload calls UploadFolder issues: as expectedUploads but also skipping
entry names that do not end in ".png". -/
def expectedUploadsPng (fs : LocalFS) (b folder p : String) (names : List String) : List RemoteCall :=
  names.filterMap (fun n =>
    if ((fs.dirs.lookup (folder ++ "/" ++ n)).isSome) then none
    else if !(endsWithPng n) then none
    else (fs.files.lookup (folder ++ "/" ++ n)).map
      (fun buf => RemoteCall.putObjectCall b (p ++ "/" ++ n) buf none))

/-- When every entry resolves to a directory or a regular file, the plain
folder loop issues exactly the expected per-file uploads and no error escapes. -/
theorem uploadFolderLoop_expected (fs : LocalFS) (b folder p : String) :
    ∀ names : List String,
      (∀ n ∈ names, ((fs.dirs.lookup (folder ++ "/" ++ n)).isSome = true
          ∨ (fs.files.lookup (folder ++ "/" ++ n)).isSome = true)) →
      uploadFolderLoop fs b folder p names = (expectedUploads fs b folder p names, none) := by
  intro names
  induction names with
  | nil => intro _; rfl
  | cons n rest ih =>
    intro h
    have hrest := fun m hm => h m (List.mem_cons_of_mem n hm)
    have hn := h n (List.mem_cons_self n rest)
    by_cases hd : (fs.dirs.lookup (folder ++ "/" ++ n)).isSome = true
    · have hloop : uploadFolderLoop fs b folder p (n :: rest)
          = uploadFolderLoop fs b folder p rest := by
        simp [uploadFolderLoop, hd]
      have hexp : expectedUploads fs b folder p (n :: rest)
          = expectedUploads fs b folder p rest := by
        simp [expectedUploads, hd]
      rw [hloop, hexp, ih hrest]
    · have hf : (fs.files.lookup (folder ++ "/" ++ n)).isSome = true := by
        rcases hn with h1 | h1
        · exact absurd h1 hd
        · exact h1
      obtain ⟨buf, hbuf⟩ := Option.isSome_iff_exists.mp hf
      have hloop : uploadFolderLoop fs b folder p (n :: rest)
          = (RemoteCall.putObjectCall b (p ++ "/" ++ n) buf none
              :: (uploadFolderLoop fs b folder p rest).1,
            (uploadFolderLoop fs b folder p rest).2) := by
        simp [uploadFolderLoop, hd, hbuf]
      have hexp : expectedUploads fs b folder p (n :: rest)
          = RemoteCall.putObjectCall b (p ++ "/" ++ n) buf none
            :: expectedUploads fs b folder p rest := by
        simp [expectedUploads, hd, hbuf]
      rw [hloop, hexp, ih hrest]

/-- When every entry resolves to a directory or a regular file, the png-filter
loop issues exactly the expected png uploads and no error escapes. -/
theorem uploadFolderPngLoop_expected (fs : LocalFS) (b folder p : String) :
    ∀ names : List String,
      (∀ n ∈ names, ((fs.dirs.lookup (folder ++ "/" ++ n)).isSome = true
          ∨ (fs.files.lookup (folder ++ "/" ++ n)).isSome = true)) →
      uploadFolderPngLoop fs b folder p names = (expectedUploadsPng fs b folder p names, none) := by
  intro names
  induction names with
  | nil => intro _; rfl
  | cons n rest ih =>
    intro h
    have hrest := fun m hm => h m (List.mem_cons_of_mem n hm)
    have hn := h n (List.mem_cons_self n rest)
    by_cases hd : (fs.dirs.lookup (folder ++ "/" ++ n)).isSome = true
    · have hloop : uploadFolderPngLoop fs b folder p (n :: rest)
          = uploadFolderPngLoop fs b folder p rest := by
        simp [uploadFolderPngLoop, hd]
      have hexp : expectedUploadsPng fs b folder p (n :: rest)
          = expectedUploadsPng fs b folder p rest := by
        simp [expectedUploadsPng, hd]
      rw [hloop, hexp, ih hrest]
    · by_cases hpng : endsWithPng n = true
      · have hf : (fs.files.lookup (folder ++ "/" ++ n)).isSome = true := by
          rcases hn with h1 | h1
          · exact absurd h1 hd
          · exact h1
        obtain ⟨buf, hbuf⟩ := Option.isSome_iff_exists.mp hf
        have hloop : uploadFolderPngLoop fs b folder p (n :: rest)
            = (RemoteCall.putObjectCall b (p ++ "/" ++ n) buf none
                :: (uploadFolderPngLoop fs b folder p rest).1,
              (uploadFolderPngLoop fs b folder p rest).2) := by
          simp [uploadFolderPngLoop, hd, hpng, hbuf]
        have hexp : expectedUploadsPng fs b folder p (n :: rest)
            = RemoteCall.putObjectCall b (p ++ "/" ++ n) buf none
              :: expectedUploadsPng fs b folder p rest := by
          simp [expectedUploadsPng, hd, hpng, hbuf]
        rw [hloop, hexp, ih hrest]
      · have hloop : uploadFolderPngLoop fs b folder p (n :: rest)
            = uploadFolderPngLoop fs b folder p rest := by
          simp [uploadFolderPngLoop, hd, hpng]
        have hexp : expectedUploadsPng fs b folder p (n :: rest)
            = expectedUploadsPng fs b folder p rest := by
          simp [expectedUploadsPng, hd, hpng]
        rw [hloop, hexp, ih hrest]

/-- C5 counterexample: a folder that passes the up-front checks and contains a
single regular (non-directory) file a.txt. The claim demands exactly one upload
request for it, but UploadFolder (second file variant) issues zero uploads,
because it additionally skips every entry whose name does not end in ".png". -/
theorem c5_uploadFolder_skips_non_png_file :
    (⟨[("d/a.txt", [7])], [("d", ["a.txt"])]⟩ : LocalFS).dirs.lookup "d" = some ["a.txt"]
      ∧ ((⟨[("d/a.txt", [7])], [("d", ["a.txt"])]⟩ : LocalFS).dirs.lookup "d/a.txt").isSome = false
      ∧ ((⟨[("d/a.txt", [7])], [("d", ["a.txt"])]⟩ : LocalFS).files.lookup "d/a.txt").isSome = true
      ∧ (UploadFolder ⟨[("d/a.txt", [7])], [("d", ["a.txt"])]⟩ "isky" "d" "wm").1 = [] := by
  decide

/-- C5 amended: for every folder passing the up-front checks whose entries all
resolve to a directory or a regular file, UploadFolderAsync and PutFolderAsync
issue exactly one callback-style upload per non-directory entry, keyed
remote-prefix/fileName with that file's bytes, in entry order, and no error
escapes; the UploadFolder variant does the same but additionally skips entries
whose name does not end in ".png" (the per-request callback settling is the
SDK's contract on each issued call). -/
theorem c5_folder_upload_one_per_file (fs : LocalFS) (b folder p : String) (names : List String)
    (hdir : fs.dirs.lookup folder = some names)
    (h0 : 0 < names.length) (h10k : names.length ≤ 10000)
    (hres : ∀ n ∈ names, ((fs.dirs.lookup (folder ++ "/" ++ n)).isSome = true
        ∨ (fs.files.lookup (folder ++ "/" ++ n)).isSome = true)) :
    UploadFolderAsync fs b folder p = (expectedUploads fs b folder p names, none)
      ∧ PutFolderAsync fs b folder p = (expectedUploads fs b folder p names, none)
      ∧ UploadFolder fs b folder p = (expectedUploadsPng fs b folder p names, none) := by
  have hne : ¬ (names.length = 0) := by omega
  have hngt : ¬ (names.length > 10000) := by omega
  refine ⟨?_, ?_, ?_⟩ <;>
    simp [UploadFolderAsync, PutFolderAsync, UploadFolder, hdir, hne, hngt,
      uploadFolderLoop_expected fs b folder p names hres,
      uploadFolderPngLoop_expected fs b folder p names hres]

/-- C5 witness: a folder with a subdirectory, a png file and a txt file; the
plain loops upload both files, the png loop only the png. -/
theorem c5_witness :
    (⟨[("d/a.png", [1, 2]), ("d/b.txt", [3])], [("d", ["sub", "a.png", "b.txt"]), ("d/sub", [])]⟩
        : LocalFS).dirs.lookup "d" = some ["sub", "a.png", "b.txt"]
      ∧ 0 < (["sub", "a.png", "b.txt"] : List String).length
      ∧ (["sub", "a.png", "b.txt"] : List String).length ≤ 10000
      ∧ (∀ n ∈ (["sub", "a.png", "b.txt"] : List String),
          (((⟨[("d/a.png", [1, 2]), ("d/b.txt", [3])], [("d", ["sub", "a.png", "b.txt"]), ("d/sub", [])]⟩
              : LocalFS).dirs.lookup ("d" ++ "/" ++ n)).isSome = true
            ∨ ((⟨[("d/a.png", [1, 2]), ("d/b.txt", [3])], [("d", ["sub", "a.png", "b.txt"]), ("d/sub", [])]⟩
              : LocalFS).files.lookup ("d" ++ "/" ++ n)).isSome = true))
      ∧ (UploadFolderAsync ⟨[("d/a.png", [1, 2]), ("d/b.txt", [3])],
            [("d", ["sub", "a.png", "b.txt"]), ("d/sub", [])]⟩ "isky" "d" "wm"
          = (expectedUploads ⟨[("d/a.png", [1, 2]), ("d/b.txt", [3])],
              [("d", ["sub", "a.png", "b.txt"]), ("d/sub", [])]⟩ "isky" "d" "wm"
              ["sub", "a.png", "b.txt"], none)
        ∧ PutFolderAsync ⟨[("d/a.png", [1, 2]), ("d/b.txt", [3])],
            [("d", ["sub", "a.png", "b.txt"]), ("d/sub", [])]⟩ "isky" "d" "wm"
          = (expectedUploads ⟨[("d/a.png", [1, 2]), ("d/b.txt", [3])],
              [("d", ["sub", "a.png", "b.txt"]), ("d/sub", [])]⟩ "isky" "d" "wm"
              ["sub", "a.png", "b.txt"], none)
        ∧ UploadFolder ⟨[("d/a.png", [1, 2]), ("d/b.txt", [3])],
            [("d", ["sub", "a.png", "b.txt"]), ("d/sub", [])]⟩ "isky" "d" "wm"
          = (expectedUploadsPng ⟨[("d/a.png", [1, 2]), ("d/b.txt", [3])],
              [("d", ["sub", "a.png", "b.txt"]), ("d/sub", [])]⟩ "isky" "d" "wm"
              ["sub", "a.png", "b.txt"], none)) :=
  ⟨rfl, by decide, by decide, by decide,
    c5_folder_upload_one_per_file
      ⟨[("d/a.png", [1, 2]), ("d/b.txt", [3])], [("d", ["sub", "a.png", "b.txt"]), ("d/sub", [])]⟩
      "isky" "d" "wm" ["sub", "a.png", "b.txt"] rfl (by decide) (by decide) (by decide)⟩

/-! ### Claims about download -/

/-- Appending on the left is cancellative for strings. -/
theorem string_append_left_cancel {s a b : String} (h : s ++ a = s ++ b) : a = b := by
  apply String.ext
  have hd : s.data ++ a.data = s.data ++ b.data := by
    simpa using congrArg String.data h
  exact List.append_cancel_left hd

/-- The parent directory of out/key is out when the key holds no slash. -/
theorem parentDir_append_noSlash (out k : String) (hk : noSlash k = true) :
    parentDir (out ++ "/" ++ k) = out := by
  have hcontains : k.data.contains '/' = false := by
    simpa [noSlash] using hk
  have hnotmem : ('/' : Char) ∉ k.data := by
    intro hm
    have h2 : k.data.contains '/' = true := by
      simpa [List.contains] using List.elem_iff.mpr hm
    rw [hcontains] at h2
    exact absurd h2 (by decide)
  have hall : ∀ c ∈ k.data.reverse, (c != '/') = true := by
    intro c hc
    have hmem : c ∈ k.data := List.mem_reverse.mp hc
    have hne : ¬ (c = '/') := fun hce => hnotmem (hce ▸ hmem)
    exact bne_iff_ne.mpr hne
  have hdata : (out ++ "/" ++ k).data = out.data ++ ('/' :: k.data) := by
    rw [String.data_append, String.data_append, List.append_assoc]
    rfl
  unfold parentDir
  rw [hdata, List.reverse_append, List.reverse_cons, List.append_assoc,
    List.dropWhile_append_of_pos hall, List.singleton_append,
    List.dropWhile_cons_of_neg (by decide)]
  simp only [List.drop_succ_cons, List.drop_zero, List.reverse_reverse]

/-- mkDirs makes its argument directory present. -/
theorem mkDirs_lookup_self (fs : LocalFS) (d : String) :
    ((mkDirs fs d).dirs.lookup d).isSome = true := by
  by_cases h : (fs.dirs.lookup d).isSome = true
  · simp [mkDirs, h]
  · simp [mkDirs, h]

/-- mkDirs never touches the regular files. -/
theorem mkDirs_files (fs : LocalFS) (d : String) : (mkDirs fs d).files = fs.files := by
  unfold mkDirs
  split <;> rfl

/-- One download iteration for a different key does not affect the lookup of a
given target path. -/
theorem downloadOne_lookup_other (s3 : S3State) (out k target : String) (fs : LocalFS)
    (hne : ¬ (out ++ "/" ++ k = target)) :
    (downloadOne s3 out k fs).files.lookup target = fs.files.lookup target := by
  have hbeq : (target == (out ++ "/" ++ k)) = false :=
    beq_eq_false_iff_ne.mpr (fun he => hne he.symm)
  cases hb : lookupObj s3.objects k with
  | none =>
    simp only [downloadOne, hb]
    rw [mkDirs_files]
  | some body =>
    simp only [downloadOne, hb]
    split
    · simp [List.lookup, hbeq, mkDirs_files]
    · rw [mkDirs_files]

/-- The download loop over keys all distinct from the target's key leaves the
target's lookup unchanged. -/
theorem downloadLoop_lookup_other (s3 : S3State) (out target : String) :
    ∀ (ks : List String) (fs : LocalFS),
      (∀ k ∈ ks, ¬ (out ++ "/" ++ k = target)) →
      (downloadLoop s3 out ks fs).files.lookup target = fs.files.lookup target := by
  intro ks
  induction ks with
  | nil => intro fs _; rfl
  | cons k rest ih =>
    intro fs h
    have hk := h k (List.mem_cons_self k rest)
    have hrest := fun m hm => h m (List.mem_cons_of_mem k hm)
    show (downloadLoop s3 out rest (downloadOne s3 out k fs)).files.lookup target = _
    rw [ih (downloadOne s3 out k fs) hrest, downloadOne_lookup_other s3 out k target fs hk]

/-- If a stored flat key occurs in a duplicate-free page, the download loop
writes its bytes at out/key. -/
theorem downloadLoop_writes (s3 : S3State) (out key : String) (B : List Nat)
    (hkB : lookupObj s3.objects key = some B) (hflat : noSlash key = true) :
    ∀ (ks : List String) (fs : LocalFS), key ∈ ks → ks.Nodup →
      (downloadLoop s3 out ks fs).files.lookup (out ++ "/" ++ key) = some B := by
  intro ks
  induction ks with
  | nil => intro fs h _; cases h
  | cons k rest ih =>
    intro fs hmem hnd
    obtain ⟨hknotin, hndrest⟩ := List.nodup_cons.mp hnd
    by_cases hkey : k = key
    · subst hkey
      have hnotin : ∀ m ∈ rest, ¬ (out ++ "/" ++ m = out ++ "/" ++ k) := by
        intro m hm heq
        exact hknotin (string_append_left_cancel heq ▸ hm)
      show (downloadLoop s3 out rest (downloadOne s3 out k fs)).files.lookup (out ++ "/" ++ k)
        = some B
      rw [downloadLoop_lookup_other s3 out (out ++ "/" ++ k) rest (downloadOne s3 out k fs) hnotin]
      have hp : (((mkDirs fs out).dirs.lookup (parentDir (out ++ "/" ++ k))).isSome) = true := by
        rw [parentDir_append_noSlash out k hflat]
        exact mkDirs_lookup_self fs out
      simp only [downloadOne, hkB]
      rw [if_pos hp]
      simp
    · have hmem2 : key ∈ rest := by
        rcases List.mem_cons.mp hmem with h1 | h1
        · exact absurd h1.symm hkey
        · exact h1
      exact ih (downloadOne s3 out k fs) hmem2 hndrest

/-- C6 counterexample: a single stored object with the nested key wm/t.bin is
listed under the marker wm, yet after DownloadObjectsAsync nothing exists at
join(outputDir, key): the code mkdirs only the output directory itself, so the
write stream to out/wm/t.bin fails on the missing parent out/wm, falsifying the
claim that the object's bytes are written at join(outputDir, key). -/
theorem c6_nested_key_not_written :
    (listObjectsV2 (⟨[⟨"wm/t.bin", [7, 7]⟩], 1000⟩ : S3State) "wm").contents = ["wm/t.bin"]
      ∧ (DownloadObjectsAsync (⟨[⟨"wm/t.bin", [7, 7]⟩], 1000⟩ : S3State) ⟨[], []⟩
          "isky" "out" "wm").files.lookup ("out" ++ "/" ++ "wm/t.bin") = none := by
  decide

/-- C6 amended: DownloadObjectsAsync ensures only the output directory itself
exists and attempts a streamed write at join(outputDir, key) for every listed
key; the write succeeds exactly when that path's parent directory exists, which
the code guarantees only for keys without internal path separators. For such a
flat key, uploading bytes B to it (the one upload call carries B) and then
downloading under a marker whose duplicate-free listing page contains the key
reproduces byte-identical content at join(outputDir, key). -/
theorem c6_roundtrip_flat_key (s3 : S3State) (fsL fsD : LocalFS)
    (b out pfx localPath key : String) (acl : Option String) (B : List Nat) (receipt : SendData)
    (hloc : fsL.files.lookup localPath = some B)
    (hflat : noSlash key = true)
    (hmem : key ∈ (listObjectsV2 (putEffect s3 key B) pfx).contents)
    (hnd : (listObjectsV2 (putEffect s3 key B) pfx).contents.Nodup) :
    (UploadFileAsync fsL (Except.ok receipt) b localPath key acl).2
        = [RemoteCall.uploadCall b key B (effACL acl)]
      ∧ (DownloadObjectsAsync (putEffect s3 key B) fsD b out pfx).files.lookup
          (out ++ "/" ++ key) = some B := by
  constructor
  · simp [UploadFileAsync, hloc]
  · have hkB : lookupObj (putEffect s3 key B).objects key = some B := by
      simp [putEffect, lookupObj]
    exact downloadLoop_writes (putEffect s3 key B) out key B hkB hflat
      (listObjectsV2 (putEffect s3 key B) pfx).contents fsD hmem hnd

/-- C6 witness: uploading movie.mp4 (a flat key) and downloading under the
marker movie writes the same bytes at out/movie.mp4. -/
theorem c6_witness :
    (⟨[("./clip", [1, 2, 3])], []⟩ : LocalFS).files.lookup "./clip" = some [1, 2, 3]
      ∧ noSlash "movie.mp4" = true
      ∧ "movie.mp4" ∈ (listObjectsV2 (putEffect (⟨[], 1000⟩ : S3State) "movie.mp4" [1, 2, 3])
          "movie").contents
      ∧ (listObjectsV2 (putEffect (⟨[], 1000⟩ : S3State) "movie.mp4" [1, 2, 3]) "movie").contents.Nodup
      ∧ ((UploadFileAsync ⟨[("./clip", [1, 2, 3])], []⟩ (Except.ok "r") "staging" "./clip"
            "movie.mp4" none).2
          = [RemoteCall.uploadCall "staging" "movie.mp4" [1, 2, 3] (effACL none)]
        ∧ (DownloadObjectsAsync (putEffect (⟨[], 1000⟩ : S3State) "movie.mp4" [1, 2, 3]) ⟨[], []⟩
            "staging" "out" "movie").files.lookup ("out" ++ "/" ++ "movie.mp4") = some [1, 2, 3]) :=
  ⟨rfl, by decide, by decide, by decide,
    c6_roundtrip_flat_key ⟨[], 1000⟩ ⟨[("./clip", [1, 2, 3])], []⟩ ⟨[], []⟩ "staging" "out"
      "movie" "./clip" "movie.mp4" none [1, 2, 3] "r" rfl (by decide) (by decide) (by decide)⟩
